import Mathlib

/-!
Verification of the bounded connection pool in
`src/db_pooling/with_pool/db_with_pool.py` (`class ConnectionPool`).

The Python class keeps:
  * `db_file`            — the database file name (opaque here, a `Nat`),
  * `max_connections`    — the fixed capacity,
  * `pool`               — a `queue.Queue(maxsize=max_connections)`, a
                           thread-safe FIFO: `get()` pops the front and blocks
                           when empty, `put()` appends at the back and blocks
                           when full,
  * `size`               — a Python int counter,
  * `lock`               — a `threading.Lock` that is never used after
                           construction, so it has no observable effect.

We embed the pool shallowly: the FIFO queue is a `List` (head = front), a
connection handle is identified by its creation index (`sqlite3.connect`
returns a fresh object on every call, always truthy), and blocking calls
return `none` ("the caller suspends here").  Two ghost fields record what the
claims talk about: `created` counts the calls to the connection factory
(`sqlite3.connect`) and `closedHandles` lists the handles on which `.close()`
has been called.  Concurrent executions are modelled, as usual for a
linearizable thread-safe queue, as interleaved sequences of completed
atomic operations.
-/

namespace DbWithPool

/-- A connection handle: `sqlite3.connect` yields a fresh object each call, so
we identify a handle with its creation index.  Connection objects are always
truthy in Python. -/
abbrev Handle := Nat

/-- The observable state of a `ConnectionPool` object.  `pool` is the FIFO
queue contents, front first.  `created` and `closedHandles` are ghost fields
recording factory calls and closed handles. -/
structure PoolState where
  db_file : Nat
  max_connections : Nat
  pool : List Handle
  size : Int
  created : Nat
  closedHandles : List Handle
  deriving Repr, DecidableEq

/-- `queue.Queue.put`: appends at the back; when the queue already holds
`maxsize` items the caller blocks, which we model as `none`. -/
def queuePut (s : PoolState) (conn : Handle) : Option PoolState :=
  if s.pool.length < s.max_connections then
    some { s with pool := s.pool ++ [conn] }
  else none

/-- The connection factory, `sqlite3.connect(self.db_file)`, modelled as a
function of the number of calls made so far; `none` models the call raising
an exception. -/
def Factory := Nat → Option Handle

/-- The always-succeeding factory: the k-th call returns handle k. -/
def okFactory : Factory := fun k => some k

/-- Outcome of `ConnectionPool.__init__`. -/
inductive InitOutcome where
  /-- Construction completed; a pool object is returned to the caller. -/
  | ok (s : PoolState)
  /-- The factory raised while pre-populating; the exception propagates out
  of `__init__`, no pool object is returned, and `abandoned` is the state of
  the half-built object at that moment. -/
  | exn (abandoned : PoolState)
  /-- `pool.put` would block during construction (shown unreachable). -/
  | stuck (s : PoolState)
  deriving Repr, DecidableEq

/-- `ConnectionPool._add_connection`:
`conn = sqlite3.connect(self.db_file); self.size += 1; self.pool.put(conn)`. -/
def add_connection (f : Factory) (s : PoolState) : InitOutcome :=
  match f s.created with
  | none => .exn s
  | some conn =>
    match queuePut { s with created := s.created + 1, size := s.size + 1 } conn with
    | none => .stuck { s with created := s.created + 1, size := s.size + 1 }
    | some s2 => .ok s2

/-- The `for _ in range(max_connections): self._add_connection()` loop of
`__init__`, with `n` iterations left. -/
def init_loop (f : Factory) : Nat → PoolState → InitOutcome
  | 0, s => .ok s
  | n + 1, s =>
    match add_connection f s with
    | .ok s2 => init_loop f n s2
    | r => r

/-- `ConnectionPool.__init__(db_file, max_connections)`: set up the empty
bounded queue and pre-populate it with `max_connections` connections. -/
def mkPool (f : Factory) (db max_connections : Nat) : InitOutcome :=
  init_loop f max_connections
    { db_file := db, max_connections := max_connections, pool := [],
      size := 0, created := 0, closedHandles := [] }

/-- `ConnectionPool.get_connection`: `conn = self.pool.get(); return conn`.
`none` means the queue was empty and the caller blocks. -/
def get_connection (s : PoolState) : Option (Handle × PoolState) :=
  match s.pool with
  | [] => none
  | conn :: rest => some (conn, { s with pool := rest })

/-- `ConnectionPool.release_connection(conn)`: `if conn: self.pool.put(conn)`.
The argument is an `Option Handle`: `none` models a falsy Python value such
as `None` (connection objects themselves are always truthy).  The result is
`none` exactly when `pool.put` blocks on a full queue. -/
def release_connection (s : PoolState) (conn : Option Handle) : Option PoolState :=
  match conn with
  | none => some s
  | some c => queuePut s c

/-- The `while not self.pool.empty():` loop of `close_all`, iterating over the
current queue contents: each iteration pops one connection, calls
`conn.close()` on it (connections are truthy, so the `if conn:` guard always
passes) and decrements `size`. -/
def close_all_loop : List Handle → PoolState → PoolState
  | [], s => s
  | conn :: rest, s =>
    close_all_loop rest
      { s with pool := rest, size := s.size - 1,
               closedHandles := s.closedHandles ++ [conn] }

/-- `ConnectionPool.close_all`: drain the queue, closing each idle
connection.  It inspects only the queue; there is no closed flag to set and
no waiting on connections currently lent out. -/
def close_all (s : PoolState) : PoolState :=
  close_all_loop s.pool s

/-- A completed pool operation by some caller. -/
inductive PoolOp where
  | acquire
  | release (h : Handle)
  deriving Repr, DecidableEq

/-- A pool together with the ghost list of handles currently lent out
(acquired and not yet released). -/
structure Config where
  pool : PoolState
  outstanding : List Handle
  deriving Repr, DecidableEq

/-- One completed operation.  An `acquire` that finds the queue empty, or a
release whose `put` would block, leaves the configuration unchanged (that
caller is suspended, nothing completed).  A release of a handle that is not
currently outstanding is outside the call patterns the claims quantify over
and is ignored. -/
def step (c : Config) (op : PoolOp) : Config :=
  match op with
  | .acquire =>
    match get_connection c.pool with
    | none => c
    | some (h, s2) => ⟨s2, h :: c.outstanding⟩
  | .release h =>
    if h ∈ c.outstanding then
      match release_connection c.pool (some h) with
      | none => c
      | some s2 => ⟨s2, c.outstanding.erase h⟩
    else c

/-- Run a sequence of completed operations. -/
def run (c : Config) : List PoolOp → Config
  | [] => c
  | op :: ops => run (step c op) ops

/-- Shorthand for a concrete pool state over database file 0: capacity `M`,
queue `q`, size counter `sz`, `cr` factory calls made, closed handles `ch`. -/
def mkState (M : Nat) (q : List Handle) (sz : Int) (cr : Nat)
    (ch : List Handle) : PoolState :=
  { db_file := 0, max_connections := M, pool := q, size := sz,
    created := cr, closedHandles := ch }

/-- The drain loop empties the queue, closes exactly the handles that were
idle (in queue order) and decrements `size` once per closed handle. -/
theorem close_all_loop_spec : ∀ (l : List Handle) (s : PoolState), s.pool = l →
    close_all_loop l s =
      { s with pool := []
               size := s.size - l.length
               closedHandles := s.closedHandles ++ l } := by
  intro l
  induction l with
  | nil =>
    intro s h
    cases s
    simp_all [close_all_loop]
  | cons c rest ih =>
    intro s h
    rw [close_all_loop, ih _ rfl]
    simp
    ring

/-- `close_all` empties the queue, closes exactly the idle handles and
decrements `size` once per closed handle; nothing else changes — in
particular no handle lent out is touched and no flag is set. -/
theorem close_all_spec (s : PoolState) :
    close_all s = { s with pool := []
                           size := s.size - s.pool.length
                           closedHandles := s.closedHandles ++ s.pool } :=
  close_all_loop_spec s.pool s rfl

/-- A successful `_add_connection` call makes one factory call, appends the
fresh connection at the back of the queue and bumps `size`; it requires a
free queue slot. -/
theorem add_connection_ok (f : Factory) (s s2 : PoolState)
    (h : add_connection f s = .ok s2) :
    ∃ c, f s.created = some c ∧ s.pool.length < s.max_connections ∧
      s2 = { s with pool := s.pool ++ [c]
                    size := s.size + 1
                    created := s.created + 1 } := by
  unfold add_connection at h
  cases hf : f s.created with
  | none => rw [hf] at h; simp at h
  | some c =>
    rw [hf] at h
    simp only [] at h
    cases hq : queuePut { s with created := s.created + 1, size := s.size + 1 } c with
    | none => rw [hq] at h; simp at h
    | some s3 =>
      rw [hq] at h
      simp only [] at h
      injection h with h2
      unfold queuePut at hq
      split at hq
      · injection hq with hq2
        refine ⟨c, rfl, by simpa using ‹_›, ?_⟩
        rw [← h2, ← hq2]
      · simp at hq

/-- `_add_connection` propagates a factory exception with the object state
untouched. -/
theorem add_connection_exn (f : Factory) (s s2 : PoolState)
    (h : add_connection f s = .exn s2) : f s.created = none ∧ s2 = s := by
  unfold add_connection at h
  cases hf : f s.created with
  | none => rw [hf] at h; injection h with h2; exact ⟨rfl, h2.symm⟩
  | some c =>
    rw [hf] at h
    simp only [] at h
    cases hq : queuePut { s with created := s.created + 1, size := s.size + 1 } c with
    | none => rw [hq] at h; simp at h
    | some s3 => rw [hq] at h; simp at h

/-- With an always-succeeding factory and room for `n` more connections, the
pre-population loop succeeds, appending the next `n` handles in creation
order and bumping `size` and `created` by `n`. -/
theorem init_loop_okFactory (n : Nat) : ∀ (s : PoolState),
    s.pool.length + n ≤ s.max_connections →
    init_loop okFactory n s =
      .ok { s with pool := s.pool ++ List.range' s.created n
                   size := s.size + n
                   created := s.created + n } := by
  induction n with
  | zero =>
    intro s h
    cases s
    simp [init_loop]
  | succ n ih =>
    intro s h
    have hadd : add_connection okFactory s =
        .ok { s with pool := s.pool ++ [s.created]
                     size := s.size + 1
                     created := s.created + 1 } := by
      have hcond : s.pool.length < s.max_connections := by omega
      simp [add_connection, okFactory, queuePut, hcond]
    rw [init_loop, hadd]
    show init_loop okFactory n _ = _
    rw [ih _ (by simp; omega)]
    simp [List.range'_succ, List.append_assoc]
    constructor
    · ring
    · omega

/-- `__init__` with an always-succeeding factory returns a pool holding the
`max_connections` handles `0, 1, …, max_connections - 1` in creation order,
with `size = created = max_connections` and nothing closed. -/
theorem mkPool_okFactory (db n : Nat) :
    mkPool okFactory db n =
      .ok { db_file := db, max_connections := n, pool := List.range' 0 n,
            size := n, created := n, closedHandles := [] } := by
  unfold mkPool
  rw [init_loop_okFactory n _ (by simp)]
  simp

/-- The pool invariant: idle handles plus lent-out handles account for the
whole capacity. -/
def Inv (c : Config) : Prop :=
  c.pool.pool.length + c.outstanding.length = c.pool.max_connections

/-- A completed operation never calls the factory, never closes a handle and
never changes the capacity. -/
theorem step_ghost (c : Config) (op : PoolOp) :
    (step c op).pool.created = c.pool.created ∧
    (step c op).pool.closedHandles = c.pool.closedHandles ∧
    (step c op).pool.max_connections = c.pool.max_connections := by
  obtain ⟨⟨db, M, q, sz, cr, ch⟩, outs⟩ := c
  cases op with
  | acquire => cases q <;> simp [step, get_connection]
  | release h =>
    by_cases hmem : h ∈ outs
    · by_cases hlen : q.length < M <;>
        simp [step, release_connection, queuePut, hmem, hlen]
    · simp [step, hmem]

/-- Completed acquires and releases preserve the pool invariant. -/
theorem step_inv (c : Config) (op : PoolOp) (h : Inv c) : Inv (step c op) := by
  obtain ⟨⟨db, M, q, sz, cr, ch⟩, outs⟩ := c
  unfold Inv at h ⊢
  simp only at h
  cases op with
  | acquire =>
    cases q with
    | nil => simpa [step, get_connection] using h
    | cons a rest =>
      simp [step, get_connection] at *
      omega
  | release hh =>
    by_cases hmem : hh ∈ outs
    · have houts : 0 < outs.length := List.length_pos_of_mem hmem
      have hlen : q.length < M := by omega
      simp [step, release_connection, queuePut, hmem, hlen,
            List.length_erase_of_mem hmem]
      omega
    · simpa [step, hmem] using h

/-- The invariant holds along every run. -/
theorem run_inv (ops : List PoolOp) : ∀ c : Config, Inv c → Inv (run c ops) := by
  induction ops with
  | nil => intro c h; exact h
  | cons op ops ih => intro c h; exact ih _ (step_inv c op h)

/-- Ghost fields are constant along every run: no factory call, no close,
no capacity change after construction. -/
theorem run_ghost (ops : List PoolOp) : ∀ c : Config,
    (run c ops).pool.created = c.pool.created ∧
    (run c ops).pool.closedHandles = c.pool.closedHandles ∧
    (run c ops).pool.max_connections = c.pool.max_connections := by
  induction ops with
  | nil => intro c; exact ⟨rfl, rfl, rfl⟩
  | cons op ops ih =>
    intro c
    obtain ⟨h1, h2, h3⟩ := ih (step c op)
    obtain ⟨g1, g2, g3⟩ := step_ghost c op
    exact ⟨h1.trans g1, h2.trans g2, h3.trans g3⟩

/-- If the pre-population loop exits with an exception, no handle has been
closed on the way and the created-but-unclosed handles are exactly the queue
contents (counted). -/
theorem init_loop_exn_inv (f : Factory) : ∀ (n : Nat) (s s2 : PoolState),
    init_loop f n s = .exn s2 →
    s2.closedHandles = s.closedHandles ∧
    (s2.pool.length : Int) - s2.created = (s.pool.length : Int) - s.created := by
  intro n
  induction n with
  | zero => intro s s2 h; simp [init_loop] at h
  | succ n ih =>
    intro s s2 h
    rw [init_loop] at h
    cases hadd : add_connection f s with
    | ok s3 =>
      rw [hadd] at h
      simp only [] at h
      obtain ⟨c, hc, hlt, rfl⟩ := add_connection_ok f s s3 hadd
      obtain ⟨h1, h2⟩ := ih _ _ h
      refine ⟨h1, ?_⟩
      rw [h2]
      simp
    | exn s3 =>
      rw [hadd] at h
      simp only [] at h
      obtain ⟨hf, rfl⟩ := add_connection_exn f s s3 hadd
      injection h with h2
      rw [← h2]
      exact ⟨rfl, rfl⟩
    | stuck s3 =>
      rw [hadd] at h
      simp only [] at h
      exact absurd h (by simp)

/-- A successful pre-population run of `n` iterations makes exactly `n`
factory calls, closes nothing, lengthens the queue by `n` and keeps the
capacity. -/
theorem init_loop_ok_ghost (f : Factory) : ∀ (n : Nat) (s s2 : PoolState),
    init_loop f n s = .ok s2 →
    s2.created = s.created + n ∧ s2.closedHandles = s.closedHandles ∧
    s2.pool.length = s.pool.length + n ∧
    s2.max_connections = s.max_connections := by
  intro n
  induction n with
  | zero =>
    intro s s2 h
    rw [init_loop] at h
    injection h with h2
    rw [← h2]
    exact ⟨rfl, rfl, rfl, rfl⟩
  | succ n ih =>
    intro s s2 h
    rw [init_loop] at h
    cases hadd : add_connection f s with
    | ok s3 =>
      rw [hadd] at h
      simp only [] at h
      obtain ⟨c, hc, hlt, rfl⟩ := add_connection_ok f s s3 hadd
      obtain ⟨h1, h2, h3, h4⟩ := ih _ _ h
      refine ⟨?_, h2, ?_, h4⟩
      · rw [h1]
        show s.created + 1 + n = s.created + (n + 1)
        omega
      · rw [h3]
        show (s.pool ++ [c]).length + n = s.pool.length + (n + 1)
        rw [List.length_append]
        simp only [List.length_singleton]
        omega
    | exn s3 =>
      rw [hadd] at h
      simp only [] at h
      exact absurd h (by simp)
    | stuck s3 =>
      rw [hadd] at h
      simp only [] at h
      exact absurd h (by simp)

/-!
## The claims
-/

/-- C1: for every pool constructed with capacity N (whatever the factory),
and every sequence of completed acquire/release operations in which only
previously acquired handles are released — any interleaving of any number of
callers — at most N handles are outstanding after the sequence; since the
sequence is arbitrary, this bounds every point of every sequence. -/
theorem C1_at_most_N_outstanding (f : Factory) (db N : Nat) (s : PoolState)
    (hinit : mkPool f db N = .ok s) (ops : List PoolOp) :
    (run ⟨s, []⟩ ops).outstanding.length ≤ N := by
  obtain ⟨hcr, hch, hlen, hmax⟩ := init_loop_ok_ghost f N _ _ hinit
  have hinv : Inv ⟨s, []⟩ := by
    unfold Inv
    simp
    simp at hlen hmax
    omega
  have hfin := run_inv ops ⟨s, []⟩ hinv
  obtain ⟨g1, g2, g3⟩ := run_ghost ops ⟨s, []⟩
  unfold Inv at hfin
  simp at hmax
  have : (run ⟨s, []⟩ ops).pool.max_connections = N := by
    rw [g3]
    show s.max_connections = N
    omega
  omega

/-- C1 witness: capacity-1 pool, three completed operations. -/
theorem C1_witness :
    (run ⟨mkState 1 [0] 1 1 [], []⟩
        [PoolOp.acquire, PoolOp.acquire, PoolOp.release 0]).outstanding.length ≤ 1 :=
  C1_at_most_N_outstanding okFactory 0 1 _ rfl _

/-- C2 counterexample: a capacity-1 pool whose single handle has been
acquired.  `close_all` finds the queue empty and returns at once: it does
not wait for the outstanding handle, and the handle the pool created
(`created = 1`) is never closed (`closedHandles` stays `[]`), contradicting
"blocks until every outstanding handle has been returned and closed" and
"after it returns … all handles ever created by the pool are closed". -/
theorem C2_counterexample :
    mkPool okFactory 0 1 = .ok (mkState 1 [0] 1 1 []) ∧
    get_connection (mkState 1 [0] 1 1 []) = some (0, mkState 1 [] 1 1 []) ∧
    close_all (mkState 1 [] 1 1 []) = mkState 1 [] 1 1 [] ∧
    (close_all (mkState 1 [] 1 1 [])).closedHandles = [] :=
  ⟨rfl, rfl, rfl, rfl⟩

/-- C2 (amended): `close_all` drains and closes exactly the handles idle at
the moment of the call and then returns immediately; it sets no closed flag
(none exists in the class), does not wait for outstanding handles, and a
handle lent out at the time of the call is not closed by it. -/
theorem C2_close_all_drains_idle_only (s : PoolState) :
    (close_all s).pool = [] ∧
    (close_all s).closedHandles = s.closedHandles ++ s.pool ∧
    (close_all s).created = s.created ∧
    (close_all s).max_connections = s.max_connections := by
  rw [close_all_spec]
  exact ⟨rfl, rfl, rfl, rfl⟩

/-- C3 counterexample: after `close_all` on a fresh capacity-1 pool, a
subsequent `get_connection` finds the queue empty and blocks (`none`); it
does not fail with a `PoolClosed` error — no such error exists in the
code. -/
theorem C3_counterexample :
    get_connection (close_all (mkState 1 [0] 1 1 [])) = none :=
  rfl

/-- C3 (amended): after `close_all` returns, an immediately subsequent
`get_connection` call blocks forever on the emptied queue: it neither
returns a handle nor raises any error — the class defines no closed flag,
so `pool.get()` simply waits. -/
theorem C3_acquire_after_close_blocks (s : PoolState) :
    get_connection (close_all s) = none := by
  rw [close_all_spec]
  rfl

/-- C4 counterexample: capacity 2 with a factory that succeeds once and then
raises.  Construction aborts as a whole (the exception propagates out of
`__init__`, no pool object is returned), but the handle made by the first
factory call is left open in the abandoned queue — nothing is closed,
contradicting "every handle created before the failure is closed". -/
theorem C4_counterexample :
    mkPool (fun k => if k = 0 then some 0 else none) 0 2 =
      .exn (mkState 2 [0] 1 1 []) ∧
    (mkState 2 [0] 1 1 []).closedHandles = [] :=
  ⟨rfl, rfl⟩

/-- C4 (amended): if the factory raises while pre-populating, construction
as a whole fails — the exception propagates and no pool object reaches the
caller — but the handles already created are NOT closed: the abandoned
object has closed nothing, and every one of its `created` handles is still
sitting open in its queue. -/
theorem C4_construction_fails_leaks_handles (f : Factory) (db N : Nat)
    (s2 : PoolState) (h : mkPool f db N = .exn s2) :
    s2.closedHandles = [] ∧ (s2.pool.length : Int) = s2.created := by
  obtain ⟨h1, h2⟩ := init_loop_exn_inv f N _ _ h
  simp at h1 h2
  exact ⟨h1, by omega⟩

/-- C4 witness: the factory that succeeds once then raises, capacity 2. -/
theorem C4_witness :
    (mkState 2 [0] 1 1 []).closedHandles = [] ∧
    ((mkState 2 [0] 1 1 []).pool.length : Int) = (mkState 2 [0] 1 1 []).created :=
  C4_construction_fails_leaks_handles (fun k => if k = 0 then some 0 else none) 0 2 _ rfl

/-- C5: from any state with at least one idle handle (and, as in every
reachable state, no more idle handles than capacity), acquiring and then
immediately releasing the returned handle leaves the idle queue holding
exactly the same multiset of handles as before the acquire (the queue
rotates; the multiset is unchanged). -/
theorem C5_acquire_release_round_trip (s : PoolState) (c : Handle)
    (rest : List Handle) (hq : s.pool = c :: rest)
    (hcap : s.pool.length ≤ s.max_connections) :
    get_connection s = some (c, { s with pool := rest }) ∧
    release_connection { s with pool := rest } (some c) =
      some { s with pool := rest ++ [c] } ∧
    List.Perm (rest ++ [c]) s.pool := by
  obtain ⟨db, M, q, sz, cr, ch⟩ := s
  have hq2 : q = c :: rest := hq
  subst hq2
  have hlen : rest.length < M := by
    have : (c :: rest).length ≤ M := hcap
    simp at this
    omega
  refine ⟨rfl, ?_, ?_⟩
  · simp [release_connection, queuePut, hlen]
  · exact List.perm_append_singleton c rest

/-- C5 witness: capacity-2 pool with handles 5 and 7 idle. -/
theorem C5_witness :
    get_connection (mkState 2 [5, 7] 2 2 []) = some (5, mkState 2 [7] 2 2 []) ∧
    release_connection (mkState 2 [7] 2 2 []) (some 5) =
      some (mkState 2 [7, 5] 2 2 []) ∧
    List.Perm ([7] ++ [5]) (mkState 2 [5, 7] 2 2 []).pool :=
  C5_acquire_release_round_trip (mkState 2 [5, 7] 2 2 []) 5 [7] rfl (by decide)

/-- C6: `close_all` is idempotent — the second call finds the queue already
empty, leaves the entire state (idle set, closed handles, size counter)
exactly as the first call left it, and, like every run of this total
drain loop, raises no error. -/
theorem C6_close_all_idempotent (s : PoolState) :
    close_all (close_all s) = close_all s := by
  rw [close_all_spec s, close_all_spec]
  simp

/-- C7: a successful construction with capacity N makes exactly N factory
calls, all during `__init__` (`created = N` and nothing closed the moment it
returns), and afterwards no sequence of completed acquire/release operations
ever creates another handle or destroys an existing one. -/
theorem C7_factory_called_exactly_N (f : Factory) (db N : Nat) (s : PoolState)
    (h : mkPool f db N = .ok s) (ops : List PoolOp) :
    s.created = N ∧ s.closedHandles = [] ∧
    (run ⟨s, []⟩ ops).pool.created = N ∧
    (run ⟨s, []⟩ ops).pool.closedHandles = [] := by
  obtain ⟨h1, h2, h3, h4⟩ := init_loop_ok_ghost f N _ _ h
  simp at h1 h2
  obtain ⟨g1, g2, g3⟩ := run_ghost ops ⟨s, []⟩
  refine ⟨h1, h2, ?_, ?_⟩
  · rw [g1]; exact h1
  · rw [g2]; exact h2

/-- C7 witness: capacity-1 pool, one acquire/release cycle. -/
theorem C7_witness :
    (mkState 1 [0] 1 1 []).created = 1 ∧
    (mkState 1 [0] 1 1 []).closedHandles = [] ∧
    (run ⟨mkState 1 [0] 1 1 [], []⟩
        [PoolOp.acquire, PoolOp.release 0]).pool.created = 1 ∧
    (run ⟨mkState 1 [0] 1 1 [], []⟩
        [PoolOp.acquire, PoolOp.release 0]).pool.closedHandles = [] :=
  C7_factory_called_exactly_N okFactory 0 1 _ rfl _

/-- C8 counterexample: the reachable initial state of a capacity-1 pool (its
one handle idle, so the bounded queue is full).  Releasing a different
truthy handle finds the queue full and `pool.put` suspends the caller
(`none`): `release_connection` does not complete, refuting "never blocks …
for every reachable pool state and every handle passed to it". -/
theorem C8_counterexample :
    mkPool okFactory 0 1 = .ok (mkState 1 [0] 1 1 []) ∧
    release_connection (mkState 1 [0] 1 1 []) (some 1) = none :=
  ⟨rfl, rfl⟩

/-- C8 (amended): `release_connection` never raises (it has no error
outcome; its only non-completing behaviour is blocking on a full queue), and
it never blocks when the handle released is one currently outstanding: in
any configuration satisfying the capacity invariant, an outstanding handle
guarantees a free queue slot, so the release completes immediately,
appending the handle at the back of the idle queue. -/
theorem C8_release_of_outstanding_never_blocks (c : Config) (h : Handle)
    (hinv : Inv c) (hmem : h ∈ c.outstanding) :
    release_connection c.pool (some h) =
      some { c.pool with pool := c.pool.pool ++ [h] } := by
  have houts : 0 < c.outstanding.length := List.length_pos_of_mem hmem
  have hlen : c.pool.pool.length < c.pool.max_connections := by
    unfold Inv at hinv
    omega
  simp [release_connection, queuePut, hlen]

/-- C8 witness: capacity-2 pool, handle 9 outstanding, handle 5 idle. -/
theorem C8_witness :
    release_connection (mkState 2 [5] 1 2 []) (some 9) =
      some (mkState 2 [5, 9] 1 2 []) :=
  C8_release_of_outstanding_never_blocks ⟨mkState 2 [5] 1 2 [], [9]⟩ 9
    (by unfold Inv; rfl) (by simp)

/-- C9: releasing a falsy value such as `None` is silently a no-op: the
`if conn:` guard skips the `put`, the call completes immediately with the
whole pool state unchanged, and no error is raised — `release_connection`
has no error outcome for any argument, so no `InvalidRelease`-style error
can ever be raised. -/
theorem C9_falsy_release_noop (s : PoolState) :
    release_connection s none = some s :=
  rfl

/-- C10: dispensing is deterministic FIFO: `get_connection` returns the
front of the queue — the handle idle the longest, because `pool.put` appends
at the back (never-yet-acquired handles sit in creation order from
construction) — and an immediate re-release appends the handle at the back,
so successive acquire/release cycles rotate round-robin through the
handles. -/
theorem C10_fifo_dispensing (s : PoolState) (c : Handle) (rest : List Handle)
    (hq : s.pool = c :: rest) (hroom : rest.length < s.max_connections) :
    get_connection s = some (c, { s with pool := rest }) ∧
    release_connection { s with pool := rest } (some c) =
      some { s with pool := rest ++ [c] } := by
  obtain ⟨db, M, q, sz, cr, ch⟩ := s
  have hq2 : q = c :: rest := hq
  subst hq2
  have hroom2 : rest.length < M := hroom
  exact ⟨rfl, by simp [release_connection, queuePut, hroom2]⟩

/-- C10 witness: capacity-2 pool with handles 4 and 6 idle: acquire returns
4 (the front), and re-releasing 4 queues it behind 6. -/
theorem C10_witness :
    get_connection (mkState 2 [4, 6] 2 2 []) = some (4, mkState 2 [6] 2 2 []) ∧
    release_connection (mkState 2 [6] 2 2 []) (some 4) =
      some (mkState 2 [6, 4] 2 2 []) :=
  C10_fifo_dispensing (mkState 2 [4, 6] 2 2 []) 4 [6] rfl (by decide)

end DbWithPool
